import Mathlib

/-!
Shallow embedding of the Nilan ESP8266 Modbus-to-MQTT gateway firmware
(the Arduino sketch): the register catalog tables, the value codec, the
MQTT command callback, the raw-socket request reader and dispatcher, and
the periodic poll cycle.  Machine integers are modelled as `Int` with
explicit wrapping (`toInt16`, byte extraction via `Int.emod`); the bus is
an oracle returning `Option` (`none` = BusError); JSON objects are
association lists built with the upsert `jsonSet` (ArduinoJson's
`root[key] =` replaces an existing key, else appends).
-/

namespace Nilan

/-- `#define MAXREGSIZE 26`: capacity of the shared decode buffer `rsbuffer`. -/
def MAXREGSIZE : Nat := 26

/-- `#define SENDINTERVAL 30000` (milliseconds between polls). -/
def SENDINTERVAL : Int := 30000

/-- `#define VENTSET 1003` -/
def VENTSET : Nat := 1003

/-- `#define RUNSET 1001` -/
def RUNSET : Nat := 1001

/-- `#define MODESET 1002` -/
def MODESET : Nat := 1002

/-- `#define TEMPSET 1004` -/
def TEMPSET : Nat := 1004

/-- `#define PROGSET 500` -/
def PROGSET : Nat := 500

/-- `#define BYPASSSET 1300` -/
def BYPASSSET : Nat := 1300

/-- `#define KEYPRESS 2000` -/
def KEYPRESS : Nat := 2000

/-! The `reqtypes` enumeration (stable ordinals 0..17, `reqmax` = 18). -/

def reqtemp : Nat := 0
def reqalarm : Nat := 1
def reqtime : Nat := 2
def reqcontrol : Nat := 3
def reqprogram : Nat := 4
def reqspeed : Nat := 5
def reqairtemp : Nat := 6
def reqairflow : Nat := 7
def reqairheat : Nat := 8
def requser : Nat := 9
def requser2 : Nat := 10
def reqinfo : Nat := 11
def reqinputairtemp : Nat := 12
def reqapp : Nat := 13
def reqoutput : Nat := 14
def reqdisplay1 : Nat := 15
def reqdisplay2 : Nat := 16
def reqdisplay : Nat := 17
def reqmax : Nat := 18

/-- `String groups[]`: the catalog's group names, in enum order. -/
def groups : List String :=
  ["temp", "alarm", "time", "control", "program", "speed", "airtemp",
   "airflow", "airheat", "user", "user2", "info", "inputairtemp", "app",
   "output", "display1", "display2", "display"]

/-- `byte regsizes[]`: register count per group. -/
def regsizes : List Nat :=
  [23, 10, 6, 8, 1, 2, 6, 2, 0, 6, 6, 14, 7, 4, 26, 4, 4, 1]

/-- `int regaddresses[]`: base bus address per group. -/
def regaddresses : List Nat :=
  [200, 400, 300, 1000, 500, 200, 1200, 1100, 0, 600, 610, 100, 1200, 0,
   100, 2002, 2007, 2000]

/-- `byte regtypes[]`: decode-kind bitmask per group
(bit 0 = holding-register bank, bit 1 = text-from-index-1, bit 2 = text,
bit 3 = scaled-by-100). -/
def regtypes : List Nat :=
  [8, 0, 1, 1, 1, 1, 1, 1, 1, 1, 1, 0, 0, 2, 1, 4, 4, 0]

/-- `char *regnames[][MAXREGSIZE]`: ordered field names per group; a
missing entry (C `NULL`, past the listed initializers) is modelled by
`List.get?` returning `none` in `getName`. -/
def regnames : List (List String) :=
  [ -- temp
    ["T0_Controller", "T1_Intake", "T2_Inlet", "T3_Exhaust", "T4_Outlet",
     "T5_Cond", "T6_Evap", "T7_Inlet", "T8_Outdoor", "T9_Heater",
     "T10_Extern", "T11_Top", "T12_Bottom", "T13_Return", "T14_Supply",
     "T15_Room", "T16", "T17_PreHeat", "T18_PresPibe", "pSuc", "pDis",
     "RH", "CO2"],
    -- alarm
    ["Status", "List_1_ID", "List_1_Date", "List_1_Time", "List_2_ID",
     "List_2_Date", "List_2_Time", "List_3_ID", "List_3_Date",
     "List_3_Time"],
    -- time
    ["Second", "Minute", "Hour", "Day", "Month", "Year"],
    -- control
    ["Type", "RunSet", "ModeSet", "VentSet", "TempSet", "ServiceMode",
     "ServicePct", "Preset"],
    -- week program
    ["WeekProgramSelect"],
    -- speed
    ["ExhaustSpeed", "InletSpeed"],
    -- airtemp
    ["CoolSet", "TempMinSum", "TempMinWin", "TempMaxSum", "TempMaxWin",
     "TempSummer"],
    -- airflow
    ["AirExchMode", "CoolVent"],
    -- airheat
    [],
    -- program.user
    ["UserFuncAct", "UserFuncSet", "UserTimeSet", "UserVentSet",
     "UserTempSet", "UserOffsSet"],
    -- program.user2
    ["User2FuncAct", "User2FuncSet", "User2TimeSet", "User2VentSet",
     "UserTempSet", "UserOffsSet"],
    -- info
    ["UserFunc", "AirFilter", "DoorOpen", "Smoke", "MotorThermo",
     "Frost_overht", "AirFlow", "P_Hi", "P_Lo", "Boil", "3WayPos",
     "DefrostHG", "Defrost", "UserFunc_2"],
    -- inputairtemp
    ["IsSummer", "TempInletSet", "TempControl", "TempRoom", "EffPct",
     "CapSet", "CapAct"],
    -- app
    ["Bus.Version", "VersionMajor", "VersionMinor", "VersionRelease"],
    -- output
    ["AirFlap", "SmokeFlap", "BypassOpen", "BypassClose", "AirCircPump",
     "AirHeatAllow", "AirHeat_1", "AirHeat_2", "AirHeat_3", "Compressor",
     "Compressor_2", "4WayCool", "HotGasHeat", "HotGasCool", "CondOpen",
     "CondClose", "WaterHeat", "3WayValve", "CenCircPump", "CenHeat_1",
     "CenHeat_2", "CenHeat_3", "CenHeatExt", "UserFunc", "UserFunc_2",
     "Defrosting"],
    -- display1
    ["Text_1_2", "Text_3_4", "Text_5_6", "Text_7_8"],
    -- display2
    ["Text_9_10", "Text_11_12", "Text_13_14", "Text_15_16"],
    -- airbypass (display)
    ["AirBypass/IsOpen"]]

/-- `char *getName(reqtypes type, int address)`: the field name, or `none`
for C's `NULL` (address out of the checked range, or a name slot past the
listed initializers). -/
def getName (t : Nat) (address : Nat) : Option String :=
  if address ≤ regsizes.getD t 0 then (regnames.getD t []).get? address
  else none

/-- The group-resolution loop at the top of `HandleRequest`: `r = reqmax;
if (req[1] != "") for (i < reqmax) if (groups[i] == req[1]) r = i;`. -/
def resolveGroup (g : String) : Nat :=
  if g = "" then reqmax
  else (List.range reqmax).foldl (fun r i => if groups.getD i "" = g then i else r) reqmax

/-! ### Machine-integer helpers -/

/-- Wrap an integer to the `int16_t` range, as C's conversion does. -/
def toInt16 (n : Int) : Int := (n + 32768) % 65536 - 32768

/-- Wrap an integer to the `uint16_t` range (C conversion to `uint16_t`). -/
def toUInt16 (n : Int) : Nat := (n % 65536).toNat

/-- `w & 0x00ff` on a (promoted) two's-complement integer. -/
def loByte (w : Int) : Nat := (w % 256).toNat

/-- `(char)(w >> 8)`: arithmetic shift right by 8 (floor division), then
the truncation to a byte that the `char` cast performs. -/
def hiChar (w : Int) : Nat := (w.fdiv 256 % 256).toNat

/-! ### `atoi` / Arduino `String::toInt` (both back onto C `atol`) -/

/-- The whitespace characters C's `atoi` skips. -/
def isSpaceC (c : Char) : Bool :=
  c = ' ' || c = '\t' || c = '\n' || c = '\r' || c = Char.ofNat 11 || c = Char.ofNat 12

/-- Accumulate decimal digits until the first non-digit, as `atol` does. -/
def atoiDigits : List Char → Int → Int
  | [], acc => acc
  | c :: cs, acc =>
    if c.isDigit then atoiDigits cs (acc * 10 + ((c.toNat : Int) - 48)) else acc

/-- Skip leading whitespace, read an optional sign, then digits. -/
def atoiSkip : List Char → Int
  | [] => 0
  | c :: cs =>
    if isSpaceC c then atoiSkip cs
    else if c = '-' then - atoiDigits cs 0
    else if c = '+' then atoiDigits cs 0
    else atoiDigits (c :: cs) 0

/-- `atoi(s.c_str())` on a request token. -/
def atoi (s : String) : Int := atoiSkip s.toList

/-- Arduino `String::toInt` on the raw payload bytes. -/
def strToInt (cs : List Char) : Int := atoiSkip cs

/-! ### Gateway state and the bus oracles -/

/-- The firmware globals the claims are about: the log of Modbus writes the
gateway has issued (each `WriteModbus(addr, val)` call, with `val` already
wrapped to `int16_t`), and the Poll Scheduler's due-time variable
`static long lastMsg` (a poll is due when `now - lastMsg > SENDINTERVAL`;
`-SENDINTERVAL` means "due immediately"). -/
structure GwState where
  writes : List (Nat × Int)
  lastMsg : Int
  deriving DecidableEq, Repr

/-- Bus read oracle: base address, register count, function kind
(`regtypes & 1`: 0 = input registers, 1 = holding registers) to either the
response words or `none` for a transport error. -/
def BusRead : Type := Nat → Nat → Nat → Option (List Int)

/-- Bus write oracle: address and (already int16) value to the result code
`node.writeMultipleRegisters` returns (0 = success). -/
def BusWrite : Type := Nat → Int → Int

/-- `char WriteModbus(uint16_t addr, int16_t val)`: stages one value and
issues a one-register write; returns the transport's result code and logs
the write. -/
def writeModbus (bw : BusWrite) (st : GwState) (addr : Nat) (val : Int) :
    Int × GwState :=
  (bw addr (toInt16 val), { st with writes := st.writes ++ [(addr, toInt16 val)] })

/-- `char ReadModbus(uint16_t addr, uint8_t sizer, int16_t *vals, int type)`:
issues the bank-appropriate read and, on success, copies the response words
into the caller's buffer as `int16_t` values. -/
def readModbus (br : BusRead) (addr : Nat) (sizer : Nat) (kind : Nat) :
    Option (List Int) :=
  (br addr sizer kind).map (List.map toInt16)

/-! ### `mqttcallback`: the broker-topic command ingress -/

/-- The one-character validation `length == 1 && payload[0] >= lo &&
payload[0] <= hi` shared by the single-digit command branches. -/
def digitRangeOk (payload : List Char) (lo hi : Char) : Prop :=
  payload.length = 1 ∧ lo ≤ payload.getD 0 (Char.ofNat 0) ∧ payload.getD 0 (Char.ofNat 0) ≤ hi

instance (payload : List Char) (lo hi : Char) : Decidable (digitRangeOk payload lo hi) := by
  unfold digitRangeOk; infer_instance

/-- The four-character validation `length == 4 && payload[0] >= '0' &&
payload[0] <= '2'` of the keypress/tempset branches. -/
def len4Ok (payload : List Char) : Prop :=
  payload.length = 4 ∧ '0' ≤ payload.getD 0 (Char.ofNat 0) ∧ payload.getD 0 (Char.ofNat 0) ≤ '2'

instance (payload : List Char) : Decidable (len4Ok payload) := by
  unfold len4Ok; infer_instance

/-- `void mqttcallback(char* topic, byte* payload, unsigned int length)`:
eight independently-checked topic/validation branches, each issuing one
`WriteModbus` on match, then the unconditional `lastMsg = -SENDINTERVAL;`
closing the function. -/
def mqttcallback (bw : BusWrite) (topic : String) (payload : List Char)
    (st : GwState) : GwState :=
  let p0 : Int := ((payload.getD 0 (Char.ofNat 0)).toNat : Int) - 48
  let st := if topic = "ap/technical/ventilation/ventset" ∧ digitRangeOk payload '0' '4' then
    (writeModbus bw st VENTSET p0).2 else st
  let st := if topic = "ap/technical/ventilation/keypress" ∧ digitRangeOk payload '0' '4' then
    (writeModbus bw st MODESET p0).2 else st
  let st := if topic = "ap/technical/ventilation/modeset" ∧ digitRangeOk payload '0' '4' then
    (writeModbus bw st MODESET p0).2 else st
  let st := if topic = "ap/technical/ventilation/runset" ∧ digitRangeOk payload '0' '1' then
    (writeModbus bw st RUNSET p0).2 else st
  let st := if topic = "ap/technical/ventilation/progset" ∧ digitRangeOk payload '0' '4' then
    (writeModbus bw st PROGSET p0).2 else st
  let st := if topic = "ap/technical/ventilation/bypassset" ∧ digitRangeOk payload '0' '1' then
    (writeModbus bw st BYPASSSET p0).2 else st
  let st := if topic = "ap/technical/ventilation/keypress" ∧ len4Ok payload then
    (writeModbus bw st KEYPRESS (strToInt payload)).2 else st
  let st := if topic = "ap/technical/ventilation/tempset" ∧ len4Ok payload then
    (writeModbus bw st TEMPSET (strToInt payload)).2 else st
  { st with lastMsg := -SENDINTERVAL }

/-- One of `mqttcallback`'s eight guards fires: the message's topic matches
a rule and its payload passes that rule's validation. -/
def anyRule (topic : String) (payload : List Char) : Prop :=
  (topic = "ap/technical/ventilation/ventset" ∧ digitRangeOk payload '0' '4') ∨
  (topic = "ap/technical/ventilation/keypress" ∧ digitRangeOk payload '0' '4') ∨
  (topic = "ap/technical/ventilation/modeset" ∧ digitRangeOk payload '0' '4') ∨
  (topic = "ap/technical/ventilation/runset" ∧ digitRangeOk payload '0' '1') ∨
  (topic = "ap/technical/ventilation/progset" ∧ digitRangeOk payload '0' '4') ∨
  (topic = "ap/technical/ventilation/bypassset" ∧ digitRangeOk payload '0' '1') ∨
  (topic = "ap/technical/ventilation/keypress" ∧ len4Ok payload) ∨
  (topic = "ap/technical/ventilation/tempset" ∧ len4Ok payload)

/-! ### `readRequest`: the query-interface line reader -/

/-- The body of `readRequest`'s scan loop over the connection's bytes:
`n` starts at `-1`; `'\n'` returns failure, `'/'` advances `n`, an ordinary
character is appended to `req[n]` when `0 <= n < 4`, a space there returns
success, anything else is discarded.  The byte list stands for the bytes
the client delivers before closing; exhausting it is the client
disconnecting (`client.connected()` turning false). -/
def readRequestLoop : List Char → Int → List String → Bool × List String
  | [], _, req => (false, req)
  | c :: cs, n, req =>
    if c = '\n' then (false, req)
    else if c = '/' then readRequestLoop cs (n + 1) req
    else if c ≠ ' ' ∧ 0 ≤ n ∧ n < 4 then
      readRequestLoop cs n (req.set n.toNat (req.getD n.toNat "" ++ c.toString))
    else if c = ' ' ∧ 0 ≤ n ∧ n < 4 then (true, req)
    else readRequestLoop cs n req

/-- `bool readRequest(WiFiClient &client)`: clears the four request tokens
and scans the connection. -/
def readRequest (input : List Char) : Bool × List String :=
  readRequestLoop input (-1) ["", "", "", ""]

/-- Slashes seen so far: the quantity `n + 1` tracks during the scan. -/
def slashCount (cs : List Char) : Nat := (cs.filter (fun c => c = '/')).length

/-! ### `HandleRequest`: the query dispatcher -/

/-- A JSON value as `HandleRequest` stores one: a string, an integer, or
the scaled decimal `rsbuffer[i] / 100.0` (modelled as a rational). -/
inductive JVal where
  | s (v : String)
  | n (v : Int)
  | q (v : Rat)
  deriving DecidableEq, Repr

/-- ArduinoJson's `root[key] = value`: replace the value of an existing
key, else append the new pair. -/
def jsonSet (root : List (String × JVal)) (k : String) (v : JVal) :
    List (String × JVal) :=
  if root.any (fun kv => kv.1 = k) then
    root.map (fun kv => if kv.1 = k then (k, v) else kv)
  else root ++ [(k, v)]

/-- The read branch's per-field decode: packed text when
`(type & 2 && i > 0) || type & 4` (two raw characters, low byte then high
byte, no sentinel handling on this path), scaled decimal when `type & 8`,
else the plain integer. -/
def decodeField (type : Nat) (i : Nat) (w : Int) : JVal :=
  if (type &&& 2 ≠ 0 ∧ 0 < i) ∨ type &&& 4 ≠ 0 then
    JVal.s (String.mk [Char.ofNat (loByte w), Char.ofNat (hiChar w)])
  else if type &&& 8 ≠ 0 then JVal.q ((w : Rat) / 100)
  else JVal.n w

/-- The name the read branch publishes for register `i` of group `r`:
`getName`'s result when it is non-NULL and non-empty (`strlen(name) > 0`). -/
def nameAt (r : Nat) (i : Nat) : Option String :=
  match getName r i with
  | some name => if name.length > 0 then some name else none
  | none => none

/-- The pairs the read branch's field loop inserts, in loop order. -/
def fieldEntries (r : Nat) (ws : List Int) : List (String × JVal) :=
  (List.range (regsizes.getD r 0)).filterMap (fun i =>
    match nameAt r i with
    | some name => some (name, decodeField (regtypes.getD r 0) i (ws.getD i 0))
    | none => none)

/-- The non-empty field names of group `r`, in register order. -/
def nonemptyNames (r : Nat) : List String :=
  (List.range (regsizes.getD r 0)).filterMap (nameAt r)

/-- `JsonObject &HandleRequest(JsonDocument doc)`.  `req` is the four
request tokens (operation, group, address, value).  Note the source reads
`regtypes[r]` (and, on `read`, `regaddresses[r]` and `regsizes[r]`) with
`r = reqmax` when the group token resolves to nothing — an access one past
the end of each 18-entry table; the model's `List.getD` puts a default
there (the access stays observable as `resolveGroup req1 = reqmax`,
settled separately). -/
def handleRequest (br : BusRead) (bw : BusWrite) (req : List String)
    (st : GwState) : GwState × List (String × JVal) :=
  let root : List (String × JVal) := []
  let r : Nat := resolveGroup (req.getD 1 "")
  let type : Nat := regtypes.getD r 0
  let stroot :=
    if req.getD 0 "" = "read" then
      let address := regaddresses.getD r 0
      let nums := regsizes.getD r 0
      let root :=
        match readModbus br address nums (type &&& 1) with
        | some ws =>
          let root := jsonSet root "status" (JVal.s "Modbus connection OK")
          (List.range nums).foldl (fun root i =>
            match nameAt r i with
            | some name => jsonSet root name (decodeField type i (ws.getD i 0))
            | none => root) root
        | none => jsonSet root "status" (JVal.s "Modbus connection failed")
      let root := jsonSet root "requestaddress" (JVal.n address)
      let root := jsonSet root "requestnum" (JVal.n nums)
      (st, root)
    else (st, root)
  let st := stroot.1
  let root := stroot.2
  let stroot :=
    if req.getD 0 "" = "set" ∧ req.getD 2 "" ≠ "" ∧ req.getD 3 "" ≠ "" then
      let address := atoi (req.getD 2 "")
      let value := atoi (req.getD 3 "")
      let res := writeModbus bw st (toUInt16 address) value
      let root := jsonSet root "result" (JVal.n res.1)
      let root := jsonSet root "address" (JVal.n address)
      let root := jsonSet root "value" (JVal.n value)
      (res.2, root)
    else (st, root)
  let st := stroot.1
  let root := stroot.2
  let root :=
    if req.getD 0 "" = "help" then
      groups.foldl (fun root g => jsonSet root g (JVal.n 0)) root
    else root
  let root := jsonSet root "operation" (JVal.s (req.getD 0 ""))
  let root := jsonSet root "group" (JVal.s (req.getD 1 ""))
  (st, root)

/-- One pass of `loop`'s socket service: `readRequest`; on success,
`HandleRequest` and a serialized response, else no response.  Nothing on
this path touches `lastMsg`. -/
def serveRequest (br : BusRead) (bw : BusWrite) (input : List Char)
    (st : GwState) : GwState × Option (List (String × JVal)) :=
  match readRequest input with
  | (true, req) =>
    let p := handleRequest br bw req st
    (p.1, some p.2)
  | (false, _) => (st, none)

/-! ### The poll cycle (`loop`'s due-poll pass) -/

/-- A published payload: `itoa(rsbuffer[i], numstr, 10)` for plain groups,
`dtostrf(rsbuffer[i] / 100.0, 5, 2, numstr)` for the temperature group,
the concatenated text line for the display groups.  The numeric rendering
to `numstr` is kept symbolic (constructor per formatting call) since no
claim depends on the rendered digits. -/
inductive PubVal where
  | num (w : Int)
  | scaled (w : Int)
  | txt (s : String)
  deriving DecidableEq, Repr

/-- The `switch (r)` choosing the topic prefix, including the special case
routing the temperature group's `RH` field (`strncmp("RH", name, 2) == 0`)
to the humidity segment.  The `"temp/"` initializer is the fall-through
default. -/
def topicRoot (r : Nat) (name : String) : String :=
  if r = reqcontrol then "ap/technical/ventilation/control/"
  else if r = reqprogram then "ap/technical/ventilation/program/"
  else if r = reqtime then "ap/technical/ventilation/time/"
  else if r = reqinfo then "ap/technical/ventilation/info/"
  else if r = reqoutput then "ap/technical/ventilation/output/"
  else if r = reqspeed then "ap/technical/ventilation/speed/"
  else if r = reqalarm then "ap/technical/ventilation/alarm/"
  else if r = reqairtemp then "ap/technical/ventilation/airtemp/"
  else if r = reqinputairtemp then "ap/technical/ventilation/inputairtemp/"
  else if r = reqairflow then "ap/technical/ventilation/airflow/"
  else if r = reqapp then "ap/technical/ventilation/app/"
  else if r = requser then "ap/technical/ventilation/user/"
  else if r = reqdisplay then "ap/technical/ventilation/display/"
  else if r = reqtemp then
    (if name.take 2 = "RH" then "ap/technical/ventilation/humidity/"
     else "ap/technical/ventilation/temp/")
  else "temp/"

/-- One group of the numeric poll pass: `ReadModbus`; on failure publish
nothing; on success publish every non-empty named field under its topic. -/
def groupPublish (br : BusRead) (r : Nat) : List (String × PubVal) :=
  match readModbus br (regaddresses.getD r 0) (regsizes.getD r 0)
      (regtypes.getD r 0 &&& 1) with
  | none => []
  | some ws =>
    (List.range (regsizes.getD r 0)).filterMap (fun i =>
      match nameAt r i with
      | some name =>
        some (topicRoot r name ++ name,
          if r = reqtemp then PubVal.scaled (ws.getD i 0) else PubVal.num (ws.getD i 0))
      | none => none)

/-- The text pass's per-word decode: emit the low byte's character, then
the high byte's character; a byte equal to `0xDF` (the bus's degree sign)
is meant to become a space.  Faithfully to the source, the low-byte
comparison is against the masked value `rsbuffer[i] & 0x00ff` while the
high-byte comparison is against the full arithmetic shift
`rsbuffer[i] >> 8` (which is negative whenever the stored `int16_t` is). -/
def decodeTextWord (w : Int) : List Char :=
  (if w % 256 = 0xDF then [' '] else [Char.ofNat (loByte w)]) ++
  (if w.fdiv 256 = 0xDF then [' '] else [Char.ofNat (hiChar w)])

/-- One group of the text poll pass: on a successful read, one message
whose topic concatenates the group's field names and whose payload
concatenates the decoded characters of every register. -/
def textGroupPublish (br : BusRead) (r : Nat) : List (String × PubVal) :=
  match readModbus br (regaddresses.getD r 0) (regsizes.getD r 0)
      (regtypes.getD r 0 &&& 1) with
  | none => []
  | some ws =>
    [("ap/technical/ventilation/text/" ++
        String.join ((List.range (regsizes.getD r 0)).map (fun i => (getName r i).getD "")),
      PubVal.txt (String.mk
        (((List.range (regsizes.getD r 0)).map (fun i => decodeTextWord (ws.getD i 0))).flatten)))]

/-- `reqtypes rr[]`: the fixed priority order of the numeric poll pass. -/
def pollOrder : List Nat :=
  [reqtemp, reqcontrol, reqprogram, reqtime, reqinfo, reqoutput, reqdisplay,
   reqspeed, reqalarm, reqairtemp, reqinputairtemp, reqairflow, requser, reqapp]

/-- `reqtypes rr2[]`: the text pass's group order. -/
def textOrder : List Nat := [reqdisplay1, reqdisplay2]

/-- One full poll cycle: the numeric pass over `rr`, then the text pass
over `rr2`, publishing in loop order. -/
def pollCycle (br : BusRead) : List (String × PubVal) :=
  let msgs := pollOrder.foldl (fun msgs r => msgs ++ groupPublish br r) []
  textOrder.foldl (fun msgs r => msgs ++ textGroupPublish br r) msgs

/-! ### The scaled-decimal codec pair -/

/-- JavaScript's `Math.round`: round half toward positive infinity. -/
def jsRound (q : Rat) : Int := ⌊q + 1 / 2⌋

/-- `valueConverters.temperature.toDevice` (driver): `Math.round(value * 100)`,
the integer later written to the bus as an `int16_t` word. -/
def temperature_toDevice (v : Rat) : Int := jsRound (v * 100)

/-- The firmware's scaled decode `rsbuffer[i] / 100.0`. -/
def scaledDecode (w : Int) : Rat := (w : Rat) / 100

/-! ### Concrete oracles and states used to instantiate the theorems -/

/-- A write oracle whose transport always reports success (code 0). -/
def bw0 : BusWrite := fun _ _ => 0

/-- A bus on which every read fails (transport error). -/
def brNone : BusRead := fun _ _ _ => none

/-- A bus answering every read with zero-valued words. -/
def brZeros : BusRead := fun _ c _ => some (List.replicate c 0)

/-- A bus on which only the temperature-group read succeeds. -/
def brTemp : BusRead := fun a c k =>
  if a = 200 ∧ c = 23 ∧ k = 0 then some (List.replicate 23 0) else none

/-- A bus on which exactly the temperature-group read fails. -/
def brFailTemp : BusRead := fun a c _ =>
  if a = 200 ∧ c = 23 then none else some (List.replicate c 0)

/-- An idle initial gateway state: no writes logged, `lastMsg = 0`. -/
def st0 : GwState := ⟨[], 0⟩

end Nilan

namespace Nilan

instance (topic : String) (payload : List Char) : Decidable (anyRule topic payload) := by
  unfold anyRule; infer_instance

/-! ## Claim theorems -/

/-- Claim C9: every group's register count (`regsizes` entry) is at most
`MAXREGSIZE` (26), the capacity of the shared decode buffer `rsbuffer`, so
no group read copies response words past the buffer's end. -/
theorem c9_regsizes_bounded : ∀ s ∈ regsizes, s ≤ MAXREGSIZE := by decide

/-- Witness for C9 at the temperature group's count of 23. -/
theorem c9_regsizes_bounded_witness : 23 ≤ MAXREGSIZE :=
  c9_regsizes_bounded 23 (by decide)

/-- Claim C1 is violated by the code: for the unknown non-empty group
token "humidity", `HandleRequest`'s resolution loop leaves `r = reqmax`
(the distinguished not-found value), yet the function then evaluates
`regtypes[r]` — and, on a read, `regaddresses[r]` and `regsizes[r]` — one
index past the end of each 18-entry catalog table. -/
theorem c1_unknown_group_oob :
    resolveGroup "humidity" = reqmax ∧
    regtypes.length = reqmax ∧
    regtypes.get? (resolveGroup "humidity") = none ∧
    regaddresses.get? (resolveGroup "humidity") = none ∧
    regsizes.get? (resolveGroup "humidity") = none ∧
    "humidity" ∉ groups ∧ "humidity" ≠ "" := by decide

/-- Claim C6's failing input: for a packed-text word whose high byte is
the sentinel `0xDF` and whose low byte is `'C'` (raw word `0xDF43`, stored
as the `int16_t` −8381), the text pass emits `'C'` followed by the raw
`0xDF` byte — the signed arithmetic shift `rsbuffer[i] >> 8` is negative,
so the comparison with `0xDF` never succeeds and the sentinel is not
replaced by a space.  The claim's own highlighted instance (low byte
sentinel, high byte `'C'`, word `0x43DF` = 17375) does decode to " C". -/
theorem c6_high_sentinel_kept :
    decodeTextWord (toInt16 0xDF43) = [Char.ofNat 0x43, Char.ofNat 0xDF] ∧
    Char.ofNat 0xDF ≠ ' ' ∧
    decodeTextWord 17375 = [' ', 'C'] ∧
    (∀ w ∈ [toInt16 0xDF43, 17375, 0, -1], ¬ w.fdiv 256 = 0xDF) := by decide

/-- Claim C5: the scaled-decimal round-trip.  For every value exactly
representable at two decimal places whose raw form fits a 16-bit word
(`v = n/100` with `n` in the `int16_t` range), decoding (`rsbuffer[i] /
100.0`) the encoding (`Math.round(value * 100)`, wrapped to the bus's
16-bit word) returns the value exactly — in particular within one
hundredth.  Raw 2100 corresponds to 21.00. -/
theorem c5_scaled_roundtrip (n : Int) (h1 : -32768 ≤ n) (h2 : n ≤ 32767) :
    scaledDecode (toInt16 (temperature_toDevice ((n : Rat) / 100))) = (n : Rat) / 100 := by
  have henc : temperature_toDevice ((n : Rat) / 100) = n := by
    unfold temperature_toDevice jsRound
    have h100 : ((n : Rat) / 100) * 100 = ((n : Int) : Rat) := by
      field_simp
    rw [h100, Int.floor_int_add]
    norm_num
  rw [henc]
  have hwrap : toInt16 n = n := by
    unfold toInt16
    omega
  rw [hwrap]
  rfl

/-- Witness for C5 at raw 2100 ⇄ 21.00. -/
theorem c5_scaled_roundtrip_witness :
    scaledDecode (toInt16 (temperature_toDevice (((2100 : Int) : Rat) / 100))) =
      ((2100 : Int) : Rat) / 100 :=
  c5_scaled_roundtrip 2100 (by decide) (by decide)

/-- Claim C2 as stated is false on the code: the one-character payload
"9" on the subscribed `ventset` topic is outside the accepted range
'0'..'4', and indeed produces no bus write — but the handler does not
leave the scheduler's due-time unchanged, because `mqttcallback` ends with
the unconditional `lastMsg = -SENDINTERVAL;`. -/
theorem c2_counterexample :
    (mqttcallback bw0 "ap/technical/ventilation/ventset" ['9'] st0).writes = st0.writes ∧
    (mqttcallback bw0 "ap/technical/ventilation/ventset" ['9'] st0).lastMsg ≠ st0.lastMsg := by
  decide

/-- Claim C2 amended: an inbound message for which no subscription rule's
topic-and-validation guard fires produces no bus write, but still resets
the scheduler's due-time to "immediate" (the callback's closing
`lastMsg = -SENDINTERVAL;` runs unconditionally). -/
theorem c2_invalid_payload (bw : BusWrite) (topic : String) (payload : List Char)
    (st : GwState) (h : ¬ anyRule topic payload) :
    (mqttcallback bw topic payload st).writes = st.writes ∧
    (mqttcallback bw topic payload st).lastMsg = -SENDINTERVAL := by
  unfold anyRule at h
  simp only [not_or] at h
  obtain ⟨h1, h2, h3, h4, h5, h6, h7, h8⟩ := h
  unfold mqttcallback
  simp only [if_neg h1, if_neg h2, if_neg h3, if_neg h4, if_neg h5, if_neg h6,
    if_neg h7, if_neg h8]
  exact ⟨trivial, trivial⟩

/-- Witness for the amended C2 at the out-of-range `ventset` payload "9". -/
theorem c2_invalid_payload_witness :
    (mqttcallback bw0 "ap/technical/ventilation/ventset" ['9'] ⟨[], 7⟩).writes =
      GwState.writes ⟨[], 7⟩ ∧
    (mqttcallback bw0 "ap/technical/ventilation/ventset" ['9'] ⟨[], 7⟩).lastMsg =
      -SENDINTERVAL :=
  c2_invalid_payload bw0 "ap/technical/ventilation/ventset" ['9'] ⟨[], 7⟩ (by decide)

/-- `HandleRequest` never changes the scheduler's due-time: the state it
returns carries the caller's `lastMsg` through every branch (only the
write log can grow, in the set branch). -/
theorem handleRequest_lastMsg (br : BusRead) (bw : BusWrite) (req : List String)
    (st : GwState) : (handleRequest br bw req st).1.lastMsg = st.lastMsg := by
  simp only [handleRequest]
  split_ifs <;> rfl

/-- Claim C3 as stated is false on the code: the query-interface line
"GET /set/x/1004/2100 " is accepted, parsed and dispatched to the set
branch, which issues the bus write (1004, 2100) — yet the scheduler's
due-time is left at its old value 0 rather than reset to `-SENDINTERVAL`,
because nothing on the `HandleRequest` path touches `lastMsg`. -/
theorem c3_counterexample :
    (serveRequest brNone bw0 ("GET /set/x/1004/2100 ".toList) st0).1 =
      ⟨[(1004, 2100)], 0⟩ ∧
    (0 : Int) ≠ -SENDINTERVAL := by
  decide

/-- Claim C3 amended: a write accepted through the broker path resets the
due-time to "immediate" (`mqttcallback` resets it unconditionally, so in
particular on every accepted write), but a set request accepted through
the query interface leaves the due-time unchanged. -/
theorem c3_due_time_reset (bw : BusWrite) (topic : String) (payload : List Char)
    (br : BusRead) (input : List Char) (st : GwState) :
    (mqttcallback bw topic payload st).lastMsg = -SENDINTERVAL ∧
    (serveRequest br bw input st).1.lastMsg = st.lastMsg := by
  refine ⟨rfl, ?_⟩
  unfold serveRequest
  rcases h : readRequest input with ⟨b, req⟩
  cases b
  · rfl
  · exact handleRequest_lastMsg br bw req st

/-- Claim C10: in `readRequest`, every character before the first '/' of
the line — spaces included — is discarded: it is stored into no token and
neither terminates nor aborts the request; the scan simply continues. -/
theorem c10_preslash_discarded (pre rest : List Char) (req : List String)
    (h : ∀ c ∈ pre, c ≠ '\n' ∧ c ≠ '/') :
    readRequestLoop (pre ++ rest) (-1) req = readRequestLoop rest (-1) req := by
  induction pre with
  | nil => rfl
  | cons c cs ih =>
    obtain ⟨hc1, hc2⟩ := h c (List.mem_cons_self c cs)
    have hrest : ∀ x ∈ cs, x ≠ '\n' ∧ x ≠ '/' := fun x hx => h x (List.mem_cons_of_mem c hx)
    simp only [List.cons_append, readRequestLoop, if_neg hc1, if_neg hc2]
    rw [if_neg (by norm_num), if_neg (by norm_num)]
    exact ih hrest

/-- Witness for C10: the HTTP request-line prefix "GET " (a space before
any '/') is skipped whole. -/
theorem c10_preslash_discarded_witness :
    readRequestLoop ("GET ".toList ++ "/read/temp/ ".toList) (-1) ["", "", "", ""] =
      readRequestLoop ("/read/temp/ ".toList) (-1) ["", "", "", ""] :=
  c10_preslash_discarded ("GET ".toList) ("/read/temp/ ".toList) ["", "", "", ""] (by decide)

/-! ### Step lemmas for the scan loop (towards C7) -/

theorem rrl_newline (cs : List Char) (n : Int) (req : List String) :
    readRequestLoop ('\n' :: cs) n req = (false, req) := by
  simp [readRequestLoop]

theorem rrl_slash (cs : List Char) (n : Int) (req : List String) :
    readRequestLoop ('/' :: cs) n req = readRequestLoop cs (n + 1) req := by
  simp [readRequestLoop]

theorem rrl_space_accept (cs : List Char) (n : Int) (req : List String)
    (h : 0 ≤ n ∧ n < 4) :
    readRequestLoop (' ' :: cs) n req = (true, req) := by
  simp [readRequestLoop, h.1, h.2]

theorem rrl_store (c : Char) (cs : List Char) (n : Int) (req : List String)
    (hnl : c ≠ '\n') (hsl : c ≠ '/') (hsp : c ≠ ' ') (h : 0 ≤ n ∧ n < 4) :
    readRequestLoop (c :: cs) n req =
      readRequestLoop cs n (req.set n.toNat (req.getD n.toNat "" ++ c.toString)) := by
  simp [readRequestLoop, hnl, hsl, hsp, h.1, h.2]

theorem rrl_skip (c : Char) (cs : List Char) (n : Int) (req : List String)
    (hnl : c ≠ '\n') (hsl : c ≠ '/') (h : ¬(0 ≤ n ∧ n < 4)) :
    readRequestLoop (c :: cs) n req = readRequestLoop cs n req := by
  have h4 : ¬(c = ' ' ∧ 0 ≤ n ∧ n < 4) := fun hc => h hc.2
  have h3 : ¬(c ≠ ' ' ∧ 0 ≤ n ∧ n < 4) := fun hc => h hc.2
  simp only [readRequestLoop, if_neg hnl, if_neg hsl, if_neg h3, if_neg h4]

theorem slashCount_cons (c : Char) (pre : List Char) :
    slashCount (c :: pre) = (if c = '/' then 1 else 0) + slashCount pre := by
  by_cases h : c = '/'
  · simp [slashCount, List.filter_cons, h]
    omega
  · simp [slashCount, List.filter_cons, h]

/-- The scan from state `n` succeeds exactly when a space occurs, before
any newline and before the input runs out, at a point where the running
slash counter `n + #slashes` is in `[0, 4)`. -/
theorem readRequestLoop_true_iff (input : List Char) : ∀ (n : Int) (req : List String),
    (readRequestLoop input n req).1 = true ↔
      ∃ pre rest, input = pre ++ ' ' :: rest ∧ '\n' ∉ pre ∧
        0 ≤ n + (slashCount pre : Int) ∧ n + (slashCount pre : Int) < 4 := by
  induction input with
  | nil =>
    intro n req
    constructor
    · intro h
      exact absurd h (by simp [readRequestLoop])
    · rintro ⟨pre, rest, hdec, -, -, -⟩
      exact absurd hdec (by simp)
  | cons c cs ih =>
    intro n req
    by_cases hnl : c = '\n'
    · subst hnl
      rw [rrl_newline]
      constructor
      · intro h
        exact absurd h (by simp)
      · rintro ⟨pre, rest, hdec, hnn, -, -⟩
        cases pre with
        | nil => simp at hdec
        | cons p pre =>
          rw [List.cons_append] at hdec
          obtain ⟨hp, -⟩ := List.cons_eq_cons.mp hdec
          rw [← hp] at hnn
          simp at hnn
    · by_cases hsl : c = '/'
      · subst hsl
        rw [rrl_slash, ih]
        constructor
        · rintro ⟨pre, rest, hdec, hnn, hlo, hhi⟩
          refine ⟨'/' :: pre, rest, by rw [hdec, List.cons_append], ?_, ?_, ?_⟩
          · simp only [List.mem_cons, not_or]
            exact ⟨by decide, hnn⟩
          · rw [slashCount_cons]; simp only [if_pos rfl]; push_cast; omega
          · rw [slashCount_cons]; simp only [if_pos rfl]; push_cast; omega
        · rintro ⟨pre, rest, hdec, hnn, hlo, hhi⟩
          cases pre with
          | nil => simp at hdec
          | cons p pre =>
            rw [List.cons_append] at hdec
            obtain ⟨hp, htail⟩ := List.cons_eq_cons.mp hdec
            rw [slashCount_cons, ← hp] at hlo hhi
            simp only [if_pos rfl] at hlo hhi
            refine ⟨pre, rest, htail, ?_, by push_cast at hlo ⊢; omega,
              by push_cast at hhi ⊢; omega⟩
            intro hmem
            exact hnn (List.mem_cons_of_mem p hmem)
      · by_cases hrange : 0 ≤ n ∧ n < 4
        · by_cases hsp : c = ' '
          · subst hsp
            rw [rrl_space_accept cs n req hrange]
            simp only [true_iff, show ((true, req).1 = true) = True by simp]
            exact ⟨[], cs, rfl, by simp,
              by rw [show slashCount ([] : List Char) = 0 from rfl]; push_cast; omega,
              by rw [show slashCount ([] : List Char) = 0 from rfl]; push_cast; omega⟩
          · rw [rrl_store c cs n req hnl hsl hsp hrange, ih]
            constructor
            · rintro ⟨pre, rest, hdec, hnn, hlo, hhi⟩
              refine ⟨c :: pre, rest, by rw [hdec, List.cons_append], ?_, ?_, ?_⟩
              · simp only [List.mem_cons, not_or]
                exact ⟨fun hh => hnl hh.symm, hnn⟩
              · rw [slashCount_cons, if_neg hsl]; push_cast; omega
              · rw [slashCount_cons, if_neg hsl]; push_cast; omega
            · rintro ⟨pre, rest, hdec, hnn, hlo, hhi⟩
              cases pre with
              | nil =>
                rw [List.nil_append] at hdec
                obtain ⟨hp, -⟩ := List.cons_eq_cons.mp hdec
                exact absurd hp hsp
              | cons p pre =>
                rw [List.cons_append] at hdec
                obtain ⟨hp, htail⟩ := List.cons_eq_cons.mp hdec
                rw [slashCount_cons, ← hp, if_neg hsl] at hlo hhi
                refine ⟨pre, rest, htail, ?_, by push_cast at hlo ⊢; omega,
                  by push_cast at hhi ⊢; omega⟩
                intro hmem
                exact hnn (List.mem_cons_of_mem p hmem)
        · rw [rrl_skip c cs n req hnl hsl hrange, ih]
          constructor
          · rintro ⟨pre, rest, hdec, hnn, hlo, hhi⟩
            refine ⟨c :: pre, rest, by rw [hdec, List.cons_append], ?_, ?_, ?_⟩
            · simp only [List.mem_cons, not_or]
              exact ⟨fun hh => hnl hh.symm, hnn⟩
            · rw [slashCount_cons, if_neg hsl]; push_cast; omega
            · rw [slashCount_cons, if_neg hsl]; push_cast; omega
          · rintro ⟨pre, rest, hdec, hnn, hlo, hhi⟩
            cases pre with
            | nil =>
              rw [List.nil_append] at hdec
              obtain ⟨hp, -⟩ := List.cons_eq_cons.mp hdec
              subst hp
              rw [show slashCount [] = 0 from rfl] at hlo hhi
              exact absurd ⟨by simpa using hlo, by simpa using hhi⟩ hrange
            | cons p pre =>
              rw [List.cons_append] at hdec
              obtain ⟨hp, htail⟩ := List.cons_eq_cons.mp hdec
              rw [slashCount_cons, ← hp, if_neg hsl] at hlo hhi
              refine ⟨pre, rest, htail, ?_, by push_cast at hlo ⊢; omega,
                by push_cast at hhi ⊢; omega⟩
              intro hmem
              exact hnn (List.mem_cons_of_mem p hmem)

/-- Claim C7: `readRequest` parses the '/'-delimited line into at most
four positional tokens (characters are stored only while the slash
counter is in range, the model's four token slots) and returns success
exactly when a trailing space terminates the line after the tokens —
after at least one and at most four '/' separators, with no earlier
newline; in particular a bare newline read before such a space returns
failure (and `serveRequest` then produces no response). -/
theorem c7_success_iff_trailing_space (input : List Char) :
    ((readRequest input).1 = true ↔
      ∃ pre rest, input = pre ++ ' ' :: rest ∧ '\n' ∉ pre ∧
        1 ≤ slashCount pre ∧ slashCount pre ≤ 4) ∧
    (∀ cs n req, readRequestLoop ('\n' :: cs) n req = (false, req)) := by
  constructor
  · rw [readRequest, readRequestLoop_true_iff]
    constructor <;> rintro ⟨pre, rest, h1, h2, h3, h4⟩ <;>
      exact ⟨pre, rest, h1, h2, by omega, by omega⟩
  · exact rrl_newline

/-- Witness for C7 on the concrete line "GET /read/temp/ ": accepted, and
the newline-abort clause at a concrete state. -/
theorem c7_success_iff_trailing_space_witness :
    (readRequest ("GET /read/temp/ ".toList)).1 = true ∧
    readRequestLoop ('\n' :: []) (-1) ["", "", "", ""] = (false, ["", "", "", ""]) := by
  refine ⟨?_, (c7_success_iff_trailing_space []).2 [] (-1) ["", "", "", ""]⟩
  exact (c7_success_iff_trailing_space ("GET /read/temp/ ".toList)).1.mpr
    ⟨"GET /read/temp/".toList, [], by decide, by decide, by decide, by decide⟩

/-- Publishing loops accumulate left-to-right: a fold appending per-item
messages equals the concatenation of the per-item message lists. -/
theorem foldl_append_flatten {α β : Type} (f : α → List β) (l : List α) (init : List β) :
    l.foldl (fun acc x => acc ++ f x) init = init ++ (l.map f).flatten := by
  induction l generalizing init with
  | nil => simp
  | cons x xs ih => simp [ih, List.append_assoc]

/-- Claim C8: a bus failure for one group publishes nothing for that
group, and the poll cycle is the in-order concatenation of each group's
own publishes (numeric pass, then text pass) — each computed solely from
that group's read, so every subsequent group in the fixed order is still
read and, on success, decoded and published within the same cycle. -/
theorem c8_cycle_continues (br : BusRead) (r0 : Nat)
    (h : br (regaddresses.getD r0 0) (regsizes.getD r0 0) (regtypes.getD r0 0 &&& 1) = none) :
    groupPublish br r0 = [] ∧
    pollCycle br = (pollOrder.map (groupPublish br)).flatten ++
      (textOrder.map (textGroupPublish br)).flatten := by
  constructor
  · unfold groupPublish readModbus
    rw [h]
    rfl
  · unfold pollCycle
    rw [foldl_append_flatten, foldl_append_flatten]
    simp

/-- Witness for C8: with the temperature group's read failing and every
other read succeeding, the temperature group publishes nothing and the
cycle still decomposes group by group. -/
theorem c8_cycle_continues_witness :
    groupPublish brFailTemp reqtemp = [] ∧
    pollCycle brFailTemp = (pollOrder.map (groupPublish brFailTemp)).flatten ++
      (textOrder.map (textGroupPublish brFailTemp)).flatten :=
  c8_cycle_continues brFailTemp reqtemp (by decide)

/-! ### Towards C4: the structure of a read response -/

/-- The resolution loop maps each catalog group's own name back to its
ordinal. -/
theorem resolveGroup_groups : ∀ r : Fin reqmax,
    resolveGroup (groups.getD r.val "") = r.val := by decide

/-- Each group's non-empty field names are pairwise distinct and distinct
from the response's bookkeeping keys. -/
theorem catalog_names_ok : ∀ r : Fin reqmax, (nonemptyNames r.val).Nodup ∧
    ∀ nm ∈ nonemptyNames r.val, nm ≠ "status" ∧ nm ≠ "requestaddress" ∧
      nm ≠ "requestnum" ∧ nm ≠ "operation" ∧ nm ≠ "group" := by decide

/-- Each group's register count equals its field-name count (every listed
name is non-empty and the name rows match `regsizes` in length). -/
theorem nonemptyNames_length : ∀ r : Fin reqmax,
    (nonemptyNames r.val).length = regsizes.getD r.val 0 := by decide

/-- `root[key] = v` on a key absent from `root` appends the pair. -/
theorem jsonSet_fresh (root : List (String × JVal)) (k : String) (v : JVal)
    (h : ∀ kv ∈ root, kv.1 ≠ k) : jsonSet root k v = root ++ [(k, v)] := by
  have hany : root.any (fun kv => kv.1 = k) = false := by
    rw [List.any_eq_false]
    intro kv hmem
    simpa using h kv hmem
  unfold jsonSet
  rw [hany]
  simp

/-- The read branch's field loop, inserting pairwise-fresh keys into a
root that contains none of them, appends exactly one entry per non-empty
field name. -/
theorem readFold_fresh (r : Nat) (type : Nat) (ws : List Int) :
    ∀ (idx : List Nat) (root : List (String × JVal)),
      (idx.filterMap (nameAt r)).Nodup →
      (∀ name ∈ idx.filterMap (nameAt r), ∀ kv ∈ root, kv.1 ≠ name) →
      List.foldl (fun root i =>
          match nameAt r i with
          | some name => jsonSet root name (decodeField type i (ws.getD i 0))
          | none => root) root idx
        = root ++ idx.filterMap (fun i =>
            match nameAt r i with
            | some name => some (name, decodeField type i (ws.getD i 0))
            | none => none) := by
  intro idx
  induction idx with
  | nil => intro root _ _; simp
  | cons i idx ih =>
    intro root hnd hfresh
    rw [List.filterMap_cons] at hnd hfresh
    rw [List.foldl_cons, List.filterMap_cons]
    cases hna : nameAt r i with
    | none =>
      rw [hna] at hnd hfresh
      dsimp only at hnd hfresh
      exact ih root hnd hfresh
    | some name =>
      rw [hna] at hnd hfresh
      dsimp only at hnd hfresh
      rw [List.nodup_cons] at hnd
      dsimp only
      rw [jsonSet_fresh root name _
        (fun kv hm => hfresh name (List.mem_cons_self name _) kv hm)]
      rw [ih (root ++ [(name, decodeField type i (ws.getD i 0))]) hnd.2 ?_]
      · simp
      · intro nm hnm kv hkv
        rcases List.mem_append.mp hkv with hin | hin
        · exact hfresh nm (List.mem_cons_of_mem name hnm) kv hin
        · have hkvp : kv = (name, decodeField type i (ws.getD i 0)) := by simpa using hin
          rw [hkvp]
          intro hh
          apply hnd.1
          have hnn : name = nm := hh
          rw [hnn]
          exact hnm

/-- The keys of the read response's field entries are exactly the group's
non-empty field names (one entry per name, in register order). -/
theorem fieldEntries_keys (r : Nat) (ws : List Int) :
    (fieldEntries r ws).map Prod.fst = nonemptyNames r := by
  unfold fieldEntries nonemptyNames
  generalize List.range (regsizes.getD r 0) = idx
  induction idx with
  | nil => rfl
  | cons i idx ih =>
    rw [List.filterMap_cons, List.filterMap_cons]
    cases h : nameAt r i with
    | none => dsimp only; exact ih
    | some name =>
      dsimp only
      rw [List.map_cons, ih]

/-- `HandleRequest` on a read request, unfolded: the branch conditions on
the four literal tokens all compute. -/
theorem handleRequest_read_unfold (br : BusRead) (bw : BusWrite) (st : GwState)
    (g : String) :
    handleRequest br bw ["read", g, "", ""] st =
      (st, jsonSet (jsonSet (jsonSet (jsonSet
        (match readModbus br (regaddresses.getD (resolveGroup g) 0)
            (regsizes.getD (resolveGroup g) 0) (regtypes.getD (resolveGroup g) 0 &&& 1) with
          | some ws =>
            List.foldl (fun root i =>
                match nameAt (resolveGroup g) i with
                | some name => jsonSet root name
                    (decodeField (regtypes.getD (resolveGroup g) 0) i (ws.getD i 0))
                | none => root)
              (jsonSet [] "status" (JVal.s "Modbus connection OK"))
              (List.range (regsizes.getD (resolveGroup g) 0))
          | none => jsonSet [] "status" (JVal.s "Modbus connection failed"))
        "requestaddress" (JVal.n (regaddresses.getD (resolveGroup g) 0)))
        "requestnum" (JVal.n (regsizes.getD (resolveGroup g) 0)))
        "operation" (JVal.s "read"))
        "group" (JVal.s g)) := rfl

/-- A member of a one-pair list has that pair's key. -/
theorem mem_singleton_fst {p : String × JVal} {k : String} {v : JVal}
    (h : p ∈ [(k, v)]) : p.1 = k := by
  have hp : p = (k, v) := by simpa using h
  rw [hp]

/-- Claim C4: for a read query naming catalog group `r`: on a successful
bus read the response holds the success status, `requestaddress` equal to
the group's base address, `requestnum` equal to its field count, and
exactly one decoded entry per non-empty field name (the entry keys are the
group's non-empty names, pairwise distinct, and the name count equals
`regsizes[r]`); on a failed read it holds the failure status and no
per-field entries. -/
theorem c4_read_group_response (r : Fin reqmax) (br : BusRead) (bw : BusWrite)
    (st : GwState) :
    (∀ ws, br (regaddresses.getD r.val 0) (regsizes.getD r.val 0)
        (regtypes.getD r.val 0 &&& 1) = some ws →
      handleRequest br bw ["read", groups.getD r.val "", "", ""] st =
        (st, ("status", JVal.s "Modbus connection OK") ::
          (fieldEntries r.val (ws.map toInt16) ++
           [("requestaddress", JVal.n (regaddresses.getD r.val 0 : Int)),
            ("requestnum", JVal.n (regsizes.getD r.val 0 : Int)),
            ("operation", JVal.s "read"),
            ("group", JVal.s (groups.getD r.val ""))]))) ∧
    (br (regaddresses.getD r.val 0) (regsizes.getD r.val 0)
        (regtypes.getD r.val 0 &&& 1) = none →
      handleRequest br bw ["read", groups.getD r.val "", "", ""] st =
        (st, [("status", JVal.s "Modbus connection failed"),
              ("requestaddress", JVal.n (regaddresses.getD r.val 0 : Int)),
              ("requestnum", JVal.n (regsizes.getD r.val 0 : Int)),
              ("operation", JVal.s "read"),
              ("group", JVal.s (groups.getD r.val ""))])) ∧
    (∀ ws, (fieldEntries r.val ws).map Prod.fst = nonemptyNames r.val) ∧
    (nonemptyNames r.val).Nodup ∧
    (nonemptyNames r.val).length = regsizes.getD r.val 0 := by
  refine ⟨?_, ?_, fun ws => fieldEntries_keys r.val ws, (catalog_names_ok r).1,
    nonemptyNames_length r⟩
  · intro ws hbr
    rw [handleRequest_read_unfold br bw st (groups.getD r.val ""), resolveGroup_groups r]
    have hread : readModbus br (regaddresses.getD r.val 0) (regsizes.getD r.val 0)
        (regtypes.getD r.val 0 &&& 1) = some (ws.map toInt16) := by
      unfold readModbus
      rw [hbr]
      rfl
    rw [hread]
    dsimp only
    have hFM : ∀ kv ∈ fieldEntries r.val (ws.map toInt16), kv.1 ≠ "status" ∧
        kv.1 ≠ "requestaddress" ∧ kv.1 ≠ "requestnum" ∧ kv.1 ≠ "operation" ∧
        kv.1 ≠ "group" := by
      intro kv hkv
      apply (catalog_names_ok r).2
      rw [← fieldEntries_keys r.val (ws.map toInt16)]
      exact List.mem_map_of_mem Prod.fst hkv
    rw [show jsonSet [] "status" (JVal.s "Modbus connection OK") =
      [("status", JVal.s "Modbus connection OK")] from rfl]
    rw [readFold_fresh r.val (regtypes.getD r.val 0) (ws.map toInt16)
      (List.range (regsizes.getD r.val 0)) [("status", JVal.s "Modbus connection OK")]
      (catalog_names_ok r).1 ?_]
    · rw [show (List.filterMap (fun i =>
          match nameAt r.val i with
          | some name => some (name, decodeField (regtypes.getD r.val 0) i
              ((ws.map toInt16).getD i 0))
          | none => none) (List.range (regsizes.getD r.val 0)))
        = fieldEntries r.val (ws.map toInt16) from rfl]
      have hfr1 : ∀ kv ∈ [("status", JVal.s "Modbus connection OK")] ++
          fieldEntries r.val (ws.map toInt16), kv.1 ≠ "requestaddress" := by
        intro kv hkv
        rcases List.mem_append.mp hkv with h | h
        · rw [mem_singleton_fst h]
          decide
        · exact (hFM kv h).2.1
      rw [jsonSet_fresh _ "requestaddress" _ hfr1]
      have hfr2 : ∀ kv ∈ ([("status", JVal.s "Modbus connection OK")] ++
          fieldEntries r.val (ws.map toInt16)) ++
          [("requestaddress", JVal.n (regaddresses.getD r.val 0 : Int))],
          kv.1 ≠ "requestnum" := by
        intro kv hkv
        rcases List.mem_append.mp hkv with h | h
        · rcases List.mem_append.mp h with h2 | h2
          · rw [mem_singleton_fst h2]
            decide
          · exact (hFM kv h2).2.2.1
        · rw [mem_singleton_fst h]
          decide
      rw [jsonSet_fresh _ "requestnum" _ hfr2]
      have hfr3 : ∀ kv ∈ (([("status", JVal.s "Modbus connection OK")] ++
          fieldEntries r.val (ws.map toInt16)) ++
          [("requestaddress", JVal.n (regaddresses.getD r.val 0 : Int))]) ++
          [("requestnum", JVal.n (regsizes.getD r.val 0 : Int))],
          kv.1 ≠ "operation" := by
        intro kv hkv
        rcases List.mem_append.mp hkv with h | h
        · rcases List.mem_append.mp h with h2 | h2
          · rcases List.mem_append.mp h2 with h3 | h3
            · rw [mem_singleton_fst h3]
              decide
            · exact (hFM kv h3).2.2.2.1
          · rw [mem_singleton_fst h2]
            decide
        · rw [mem_singleton_fst h]
          decide
      rw [jsonSet_fresh _ "operation" _ hfr3]
      have hfr4 : ∀ kv ∈ ((([("status", JVal.s "Modbus connection OK")] ++
          fieldEntries r.val (ws.map toInt16)) ++
          [("requestaddress", JVal.n (regaddresses.getD r.val 0 : Int))]) ++
          [("requestnum", JVal.n (regsizes.getD r.val 0 : Int))]) ++
          [("operation", JVal.s "read")],
          kv.1 ≠ "group" := by
        intro kv hkv
        rcases List.mem_append.mp hkv with h | h
        · rcases List.mem_append.mp h with h2 | h2
          · rcases List.mem_append.mp h2 with h3 | h3
            · rcases List.mem_append.mp h3 with h4 | h4
              · rw [mem_singleton_fst h4]
                decide
              · exact (hFM kv h4).2.2.2.2
            · rw [mem_singleton_fst h3]
              decide
          · rw [mem_singleton_fst h2]
            decide
        · rw [mem_singleton_fst h]
          decide
      rw [jsonSet_fresh _ "group" _ hfr4]
      simp [List.append_assoc]
    · intro nm hnm kv hkv
      have h5 := (catalog_names_ok r).2 nm hnm
      rw [mem_singleton_fst hkv]
      exact fun hh => h5.1 hh.symm
  · intro hbr
    rw [handleRequest_read_unfold br bw st (groups.getD r.val ""), resolveGroup_groups r]
    have hread : readModbus br (regaddresses.getD r.val 0) (regsizes.getD r.val 0)
        (regtypes.getD r.val 0 &&& 1) = none := by
      unfold readModbus
      rw [hbr]
      rfl
    rw [hread]
    rfl

/-- Witness for C4 at the temperature group (`read/temp/`), with a bus
answering 23 zero words, and with a failing bus. -/
theorem c4_read_group_response_witness :
    handleRequest brTemp bw0 ["read", "temp", "", ""] st0 =
      (st0, ("status", JVal.s "Modbus connection OK") ::
        (fieldEntries 0 ((List.replicate 23 0).map toInt16) ++
         [("requestaddress", JVal.n 200), ("requestnum", JVal.n 23),
          ("operation", JVal.s "read"), ("group", JVal.s "temp")])) ∧
    handleRequest brNone bw0 ["read", "temp", "", ""] st0 =
      (st0, [("status", JVal.s "Modbus connection failed"),
        ("requestaddress", JVal.n 200), ("requestnum", JVal.n 23),
        ("operation", JVal.s "read"), ("group", JVal.s "temp")]) := by
  have h0 : (0 : Nat) < reqmax := by decide
  constructor
  · exact (c4_read_group_response ⟨0, h0⟩ brTemp bw0 st0).1
      (List.replicate 23 0)
      (by decide : brTemp (regaddresses.getD 0 0) (regsizes.getD 0 0)
        (regtypes.getD 0 0 &&& 1) = some (List.replicate 23 0))
  · exact (c4_read_group_response ⟨0, h0⟩ brNone bw0 st0).2.1
      (by decide : brNone (regaddresses.getD 0 0) (regsizes.getD 0 0)
        (regtypes.getD 0 0 &&& 1) = none)

end Nilan
